import Mathlib

/-!
Verification development for the lucky-draw application.

The definitions below are a shallow embedding of the draw-orchestration
core of the application: the constrained random-number allocator
(`getRandomNumber` / `generateRandomNumber` in `App.tsx`), the slot-machine
digit state machine (`SlotMachine.tsx`), and the winner-committing handler
(`handleSpinFinished` in `App.tsx`).  JavaScript numbers that hold lottery
values are modelled as `Int`; the `Uint32Array` sample consumed by
`crypto.getRandomValues` is modelled as a stream `Nat → Nat`; the remote
Random.org call is modelled by an oracle producing one `RemoteOutcome`
per allocation attempt.
-/

namespace LuckyDraw

/-- `SpinMode` enum from `types.ts`. -/
inductive SpinMode where
  | ALL_AT_ONCE
  | SEQUENTIAL
  | MANUAL
deriving DecidableEq, Repr

/-- `ManualRevealMode` enum from `types.ts`. -/
inductive ManualRevealMode where
  | CLICK
  | TIMER
deriving DecidableEq, Repr

/-- `AutoStopMode` enum (referenced as `AutoStopMode.TIMER` / `AutoStopMode.MANUAL`
in `SlotMachine.tsx` and `constants.ts`). -/
inductive AutoStopMode where
  | TIMER
  | MANUAL
deriving DecidableEq, Repr

/-- `RandomSource` enum from `types.ts`. -/
inductive RandomSource where
  | LOCAL
  | RANDOM_ORG
deriving DecidableEq, Repr

/-- `Prize` record from `types.ts` (plus the `autoStopMode` field used by
`constants.ts` and `SlotMachine.tsx`). -/
structure Prize where
  id : String
  name : String
  quantity : Nat
  spinMode : SpinMode
  spinDuration : Nat
  digitCount : Nat
  manualRevealMode : Option ManualRevealMode
  autoStopMode : Option AutoStopMode
deriving DecidableEq, Repr

/-- `Winner` record from `types.ts`. -/
structure Winner where
  id : String
  prizeId : String
  prizeName : String
  number : String
  timestamp : Nat
deriving DecidableEq, Repr

/-- `GlobalSettings` record from `types.ts`. -/
structure GlobalSettings where
  minNumber : Int
  maxNumber : Int
  excludePreviousWinners : Bool
  randomSource : RandomSource
  randomOrgApiKey : Option String
deriving DecidableEq, Repr

/-! ### The number allocator (`App.tsx`, `getRandomNumber` / `generateRandomNumber`) -/

/-- Outcome of the one Random.org request made by `getRandomNumber`:
a transport failure / timeout / thrown error (the `catch` branch), a
response carrying `data.error`, a response whose `data.result?.random?.data`
is missing or not an array, or a well-formed batch of integers. -/
inductive RemoteOutcome where
  | failure
  | apiError
  | malformed
  | batch (nums : List Int)
deriving DecidableEq, Repr

/-- Truthiness of `settings.randomOrgApiKey?.trim()`: an API key is
configured and non-blank, i.e. it contains a non-whitespace character
(a string whose trim is empty is falsy). -/
def hasApiKey (s : GlobalSettings) : Bool :=
  match s.randomOrgApiKey with
  | none => false
  | some k => k.data.any (fun c => !c.isWhitespace)

/-- `getLocalRandom` helper inside `getRandomNumber`:
`(array[0] % range) + min` for one `Uint32` sample `u`. -/
def getLocalRandom (minN maxN : Int) (u : Nat) : Int :=
  (u : Int) % (maxN - minN + 1) + minN

/-- `getRandomNumber(min, max, taken)` from `App.tsx` for a single attempt.
The settings closure decides whether Random.org is used; `remote` is the
outcome of the (single) remote request of this attempt and `u` the
`Uint32` sample used by the local fallback. -/
def getRandomNumber (s : GlobalSettings) (minN maxN : Int) (taken : Finset Int)
    (remote : RemoteOutcome) (u : Nat) : Int :=
  let useRandomOrg := s.randomSource = RandomSource.RANDOM_ORG ∧ hasApiKey s = true
  if ¬useRandomOrg then
    getLocalRandom minN maxN u
  else
    match remote with
    | RemoteOutcome.failure => getLocalRandom minN maxN u
    | RemoteOutcome.apiError => getLocalRandom minN maxN u
    | RemoteOutcome.malformed => getLocalRandom minN maxN u
    | RemoteOutcome.batch nums =>
      match nums.find? (fun n => !decide (n ∈ taken)) with
      | some n => n
      | none => getLocalRandom minN maxN u

/-- The `do … while (!found)` retry loop of `generateRandomNumber`.
`attempts` is the value of the `attempts` counter on entry to the loop
body; `fuel` is a structural bound that is never exhausted when the loop
is entered with `fuel = maxAttempts.toNat + 1` (the loop body returns
`null` as soon as `attempts > maxAttempts`). -/
def genLoop (s : GlobalSettings) (taken : Finset Int)
    (oracle : Nat → RemoteOutcome) (stream : Nat → Nat)
    (maxAttempts : Int) : Nat → Nat → Option Int
  | 0, _ => none
  | fuel + 1, attempts =>
    let result := getRandomNumber s s.minNumber s.maxNumber taken
        (oracle attempts) (stream attempts)
    let attempts' := attempts + 1
    let found := s.excludePreviousWinners = false ∨ result ∉ taken
    if ((attempts' : Int) > maxAttempts) then none
    else if found then some result
    else genLoop s taken oracle stream maxAttempts fuel attempts'

/-- `generateRandomNumber` from `App.tsx`.  `takenNumbers` is the set the
source builds from `winnersRef.current` (`new Set(winners.map(w =>
parseInt(w.number, 10)))`), passed here as a parameter so claims can
quantify over exclusion sets directly. -/
def generateRandomNumber (s : GlobalSettings) (takenNumbers : Finset Int)
    (oracle : Nat → RemoteOutcome) (stream : Nat → Nat) : Option String :=
  let maxAttempts : Int := (s.maxNumber - s.minNumber) * 5
  if s.maxNumber - s.minNumber + 1 ≤ (takenNumbers.card : Int)
      ∧ s.excludePreviousWinners = true then
    none
  else
    (genLoop s takenNumbers oracle stream maxAttempts (maxAttempts.toNat + 1) 0).map
      (fun r => Int.repr r)

/-! ### The slot machine (`SlotMachine.tsx`)

The component's internal state together with the `App.tsx` props that
drive it (`targetNumber`, `isSpinning`, `isManualSpinActive`) form one
machine state.  Each discrete external stimulus (a digit click, the
completion of `handleStartSpin`, a timer firing, the reveal button) is an
event; an event's transition is the React event handler followed by the
effects that re-run because their dependencies changed, composed in
declaration order, exactly as analysed from the source. -/

/-- Resolved `SlotMachine` props that stay constant during a session
(`digitCount`, `spinMode`, `spinDuration`, and the defaulted
`manualRevealMode = CLICK`, `autoStopMode = MANUAL` props). -/
structure SMConfig where
  digitCount : Nat
  spinMode : SpinMode
  spinDuration : Nat
  manualRevealMode : ManualRevealMode
  autoStopMode : AutoStopMode
deriving DecidableEq, Repr

/-- Machine state: the `App.tsx` props `targetNumber` / `isSpinning` /
`isManualSpinActive` plus the `SlotMachine` component state
`digitSpinningState`, `digitStoppedState`, `manualSpinStarted`,
`pendingClickIndex`, `spinningDigitCount`. -/
structure SMState where
  target : Option String
  isSpinning : Bool
  isManualSpinActive : Bool
  spinning : List Bool
  stopped : List Bool
  manualSpinStarted : Bool
  pendingClick : Option Nat
  spinningCount : Int
deriving DecidableEq, Repr

/-- Callbacks the component fires towards `App.tsx`. -/
inductive Emit where
  | stopDigit
  | finished
  | startedSpin
  | digitSpinStart
  | digitSpinStop (stillSpinning : Bool)
deriving DecidableEq, Repr

/-- `Array(digitCount).fill(b)`. -/
def fillB (n : Nat) (b : Bool) : List Bool := List.replicate n b

/-- Initial component state (the `useState` initializers). -/
def initSM (cfg : SMConfig) : SMState :=
  { target := none
    isSpinning := false
    isManualSpinActive := false
    spinning := fillB cfg.digitCount false
    stopped := fillB cfg.digitCount false
    manualSpinStarted := false
    pendingClick := none
    spinningCount := 0 }

/-- `digitSpinningState.some(s => s)`. -/
def isAnyDigitSpinning (st : SMState) : Bool := st.spinning.any id

/-- `digitStoppedState.every(s => s)`. -/
def areAllDigitsStopped (st : SMState) : Bool := st.stopped.all id

/-- `startDigitSpin(index)`: mark the digit spinning, bump the live
spinning count, fire `onDigitSpinStart` on the 0 → 1 transition. -/
def startDigitSpin (st : SMState) (i : Nat) : SMState × List Emit :=
  let newCount := st.spinningCount + 1
  ({ st with spinning := st.spinning.set i true, spinningCount := newCount },
   if newCount = 1 then [Emit.digitSpinStart] else [])

/-- `stopDigitSpin(index)`: unmark spinning, mark stopped, decrement the
count firing `onDigitSpinStop(newCount > 0)`, then fire `onStopDigit`. -/
def stopDigitSpin (st : SMState) (i : Nat) : SMState × List Emit :=
  let newCount := st.spinningCount - 1
  ({ st with spinning := st.spinning.set i false,
             stopped := st.stopped.set i true,
             spinningCount := newCount },
   [Emit.digitSpinStop (newCount > 0), Emit.stopDigit])

/-- `isDigitClickable(idx)` from `SlotMachine.tsx`. -/
def isDigitClickable (cfg : SMConfig) (st : SMState) (i : Nat) : Bool :=
  if cfg.spinMode ≠ SpinMode.MANUAL then false
  else if cfg.manualRevealMode = ManualRevealMode.TIMER then false
  else if st.spinning.getD i false then true
  else if isAnyDigitSpinning st then false
  else if areAllDigitsStopped st then true
  else if !(st.stopped.getD i false) then true
  else false

/-- The state mutation of `handleDigitClick`'s first-click / new-cycle
branch before the digit spins: `if (allStopped)
setDigitStoppedState(fill(false))` followed by
`setManualSpinStarted(true)`. -/
def clickCycleStart (cfg : SMConfig) (st : SMState) : SMState :=
  { (if areAllDigitsStopped st then
      { st with stopped := fillB cfg.digitCount false } else st) with
    manualSpinStarted := true }

/-- `handleDigitClick(index)` from `SlotMachine.tsx` (the handler body;
the `isDigitClickable` gate sits in the JSX `onClick` wiring). -/
def handleDigitClick (cfg : SMConfig) (st : SMState) (i : Nat) :
    SMState × List Emit :=
  if cfg.spinMode ≠ SpinMode.MANUAL then (st, [])
  else if cfg.manualRevealMode = ManualRevealMode.TIMER then (st, [])
  else if st.spinning.getD i false then stopDigitSpin st i
  else if st.stopped.getD i false ∧ ¬areAllDigitsStopped st = true then (st, [])
  else if ¬st.manualSpinStarted = true ∨ areAllDigitsStopped st = true then
    if st.target = none then
      ({ clickCycleStart cfg st with pendingClick := some i }, [Emit.startedSpin])
    else startDigitSpin (clickCycleStart cfg st) i
  else if st.target = none then (st, [])
  else startDigitSpin st i

/-- A digit click as delivered through the JSX wiring: the handler runs
only when `isDigitClickable` holds. -/
def clickDigit (cfg : SMConfig) (st : SMState) (i : Nat) : SMState × List Emit :=
  if isDigitClickable cfg st i then handleDigitClick cfg st i else (st, [])

/-- `handleSpinFinished`'s state updates as seen by the machine: clear
`isSpinning`, `isManualSpinActive` and `targetNumber` (winner commitment
is modelled separately on the `App` state). -/
def appFinish (st : SMState) : SMState :=
  { st with isSpinning := false, isManualSpinActive := false, target := none }

/-- Effect at `SlotMachine.tsx:223` (deps `[isSpinning, digitCount,
spinMode]`): for AUTO modes sync both digit arrays with `isSpinning`. -/
def syncAuto (cfg : SMConfig) (st : SMState) : SMState :=
  if cfg.spinMode = SpinMode.MANUAL then st
  else { st with stopped := fillB cfg.digitCount (!st.isSpinning),
                 spinning := fillB cfg.digitCount st.isSpinning }

/-- Effect at `SlotMachine.tsx:141` on the rising edge of
`isManualSpinActive`: reset both arrays, set `manualSpinStarted`,
zero the count. -/
def manualSessionReset (cfg : SMConfig) (st : SMState) : SMState :=
  { st with spinning := fillB cfg.digitCount false,
            stopped := fillB cfg.digitCount false,
            manualSpinStarted := true,
            spinningCount := 0 }

/-- Effect at `SlotMachine.tsx:153` (MANUAL + TIMER auto-start): all
digits start spinning at once and `onDigitSpinStart` fires. -/
def manualTimerAutostart (cfg : SMConfig) (st : SMState) : SMState × List Emit :=
  ({ st with spinning := fillB cfg.digitCount true,
             spinningCount := (cfg.digitCount : Int) },
   [Emit.digitSpinStart])

/-- Effect at `SlotMachine.tsx:203` (deps `[targetNumber]`): when the
target arrives after a pending click, start that digit spinning. -/
def pendingClickEffect (cfg : SMConfig) (st : SMState) : SMState × List Emit :=
  match st.pendingClick with
  | some i =>
    if cfg.spinMode = SpinMode.MANUAL ∧ st.target ≠ none then
      ({ (startDigitSpin st i).1 with pendingClick := none },
       (startDigitSpin st i).2)
    else (st, [])
  | none => (st, [])

/-- Effect at `SlotMachine.tsx:211`: when the target is cleared while a
MANUAL spin had started, reset all per-digit state. -/
def targetClearedReset (cfg : SMConfig) (st : SMState) : SMState :=
  if cfg.spinMode = SpinMode.MANUAL ∧ st.target = none
      ∧ st.manualSpinStarted = true then
    { st with manualSpinStarted := false,
              spinning := fillB cfg.digitCount false,
              stopped := fillB cfg.digitCount false,
              spinningCount := 0,
              pendingClick := none }
  else st

/-- Effect at `SlotMachine.tsx:231`: in MANUAL mode, once every digit is
stopped, fire `onFinished` (whose `handleSpinFinished` clears the session
flags and the target) and clear `manualSpinStarted`. -/
def manualAllStoppedCheck (cfg : SMConfig) (st : SMState) : SMState × List Emit :=
  if cfg.spinMode = SpinMode.MANUAL ∧ st.manualSpinStarted = true
      ∧ areAllDigitsStopped st = true then
    (appFinish { st with manualSpinStarted := false }, [Emit.finished])
  else (st, [])

/-- `revealResult` from `SlotMachine.tsx` (the raw ref method body). -/
def revealResult (cfg : SMConfig) (st : SMState) : SMState × List Emit :=
  if ¬st.isSpinning = true ∨ st.target = none then (st, [])
  else ({ st with stopped := fillB cfg.digitCount true },
        [Emit.stopDigit, Emit.finished])

/-- The per-digit delay of the SEQUENTIAL branch of the auto-stop effect:
`setTimeout(…, spinDuration * (i + 1))`. -/
def sequentialStopDelay (cfg : SMConfig) (i : Nat) : Nat :=
  cfg.spinDuration * (i + 1)

/-- The timeouts the SEQUENTIAL branch of the auto-stop effect
(`SlotMachine.tsx:276`) schedules when it runs: one `(delay, digit)` pair
per digit.  Empty when the effect's guards reject. -/
def sequentialSchedule (cfg : SMConfig) (st : SMState) : List (Nat × Nat) :=
  if cfg.spinMode = SpinMode.SEQUENTIAL ∧ st.isSpinning = true
      ∧ st.target ≠ none then
    (List.range cfg.digitCount).map (fun i => (sequentialStopDelay cfg i, i))
  else []

/-- The single timeout the ALL_AT_ONCE branch of the auto-stop effect
schedules: `none` when `autoStopMode` is MANUAL (the branch returns
without scheduling) or when the effect's guards reject. -/
def allAtOnceSchedule (cfg : SMConfig) (st : SMState) : Option Nat :=
  if cfg.spinMode = SpinMode.ALL_AT_ONCE ∧ st.isSpinning = true
      ∧ st.target ≠ none then
    if cfg.autoStopMode = AutoStopMode.MANUAL then none
    else some cfg.spinDuration
  else none

/-- External stimuli of the machine. -/
inductive Event where
  | click (i : Nat)
  | targetArrives (num : String)
  | autoStopFire
  | seqFire (i : Nat)
  | manualTimerFire (i : Nat)
  | reveal
  | resetStates
deriving DecidableEq, Repr

/-- A digit click and the effect round it triggers: after
`handleDigitClick`, effect 211 re-runs when the click raised
`manualSpinStarted` (wiping a pending click while the target is still
null), and the all-stopped check re-runs when the stopped array or
`manualSpinStarted` changed. -/
def clickAfterReset (cfg : SMConfig) (st : SMState) (i : Nat) : SMState :=
  if (clickDigit cfg st i).1.manualSpinStarted = true
      ∧ ¬st.manualSpinStarted = true then
    targetClearedReset cfg (clickDigit cfg st i).1
  else (clickDigit cfg st i).1

def stepClick (cfg : SMConfig) (st : SMState) (i : Nat) : SMState × List Emit :=
  ((manualAllStoppedCheck cfg (clickAfterReset cfg st i)).1,
   (clickDigit cfg st i).2 ++ (manualAllStoppedCheck cfg (clickAfterReset cfg st i)).2)

/-- The prop updates of a resolving `handleStartSpin`:
`setTargetNumber(num)`, `setIsSpinning(true)`, and — for MANUAL prizes —
`setIsManualSpinActive(true)`. -/
def arriveSet (cfg : SMConfig) (st : SMState) (num : String) : SMState :=
  { st with
    target := some num
    isSpinning := true
    isManualSpinActive := decide (cfg.spinMode = SpinMode.MANUAL) }

/-- The session-reset effect on the rising `isManualSpinActive` edge
(`SlotMachine.tsx:141`), which only applies in MANUAL mode. -/
def arriveReset (cfg : SMConfig) (st : SMState) : SMState :=
  if cfg.spinMode = SpinMode.MANUAL then manualSessionReset cfg st else st

/-- The MANUAL + TIMER auto-start effect following the session reset. -/
def arriveMid (cfg : SMConfig) (st : SMState) (num : String) : SMState × List Emit :=
  if cfg.spinMode = SpinMode.MANUAL
      ∧ cfg.manualRevealMode = ManualRevealMode.TIMER then
    manualTimerAutostart cfg (arriveReset cfg (arriveSet cfg st num))
  else (arriveReset cfg (arriveSet cfg st num), [])

/-- Completion of `handleStartSpin` (an allocation resolved with `num`):
rejected when a spin is already in progress (the entry guard
`isSpinning || isManualSpinning || isManualSpinActive`); otherwise the
target/spin flags are set and the dependent effects run in declaration
order (session reset on the rising `isManualSpinActive` edge, the
MANUAL + TIMER auto-start, the pending-click start, the AUTO sync, the
all-stopped check). -/
def stepTargetArrives (cfg : SMConfig) (st : SMState) (num : String) :
    SMState × List Emit :=
  if st.isSpinning = true ∨ isAnyDigitSpinning st = true
      ∨ st.isManualSpinActive = true then (st, [])
  else
    ((manualAllStoppedCheck cfg (syncAuto cfg
        (pendingClickEffect cfg (arriveMid cfg st num).1).1)).1,
     (arriveMid cfg st num).2 ++
       (pendingClickEffect cfg (arriveMid cfg st num).1).2 ++
       (manualAllStoppedCheck cfg (syncAuto cfg
         (pendingClickEffect cfg (arriveMid cfg st num).1).1)).2)

/-- The ALL_AT_ONCE + TIMER timeout firing (`SlotMachine.tsx:269`): stop
every digit, fire `onStopDigit` and `onFinished`; `handleSpinFinished`
then clears the session flags and the sync effect re-runs. -/
def stepAutoStopFire (cfg : SMConfig) (st : SMState) : SMState × List Emit :=
  if cfg.spinMode = SpinMode.ALL_AT_ONCE ∧ cfg.autoStopMode = AutoStopMode.TIMER
      ∧ st.isSpinning = true ∧ st.target ≠ none then
    (syncAuto cfg (appFinish { st with stopped := fillB cfg.digitCount true }),
     [Emit.stopDigit, Emit.finished])
  else (st, [])

/-- A SEQUENTIAL per-digit timeout firing (`SlotMachine.tsx:278`): stop
digit `i`, fire `onStopDigit`, and on the last digit fire `onFinished`
(after which the session flags clear and the sync effect re-runs). -/
def stepSeqFire (cfg : SMConfig) (st : SMState) (i : Nat) : SMState × List Emit :=
  if cfg.spinMode = SpinMode.SEQUENTIAL ∧ st.isSpinning = true
      ∧ st.target ≠ none then
    let st1 := { st with stopped := st.stopped.set i true }
    if i = cfg.digitCount - 1 then
      (syncAuto cfg (appFinish st1), [Emit.stopDigit, Emit.finished])
    else (st1, [Emit.stopDigit])
  else (st, [])

/-- The per-digit stop performed by a MANUAL + TIMER timeout
(`SlotMachine.tsx:169`): unmark spinning, mark stopped, decrement the
live count. -/
def manualTimerStopState (st : SMState) (i : Nat) : SMState :=
  { st with
    spinning := st.spinning.set i false
    stopped := st.stopped.set i true
    spinningCount := st.spinningCount - 1 }

/-- A MANUAL + TIMER per-digit timeout firing (`SlotMachine.tsx:169`):
stop digit `i`, fire `onDigitSpinStop` and `onStopDigit`, then the
all-stopped check re-runs. -/
def stepManualTimerFire (cfg : SMConfig) (st : SMState) (i : Nat) :
    SMState × List Emit :=
  if cfg.spinMode = SpinMode.MANUAL ∧ cfg.manualRevealMode = ManualRevealMode.TIMER
      ∧ st.isManualSpinActive = true ∧ st.target ≠ none then
    ((manualAllStoppedCheck cfg (manualTimerStopState st i)).1,
     [Emit.digitSpinStop (st.spinningCount - 1 > 0), Emit.stopDigit] ++
       (manualAllStoppedCheck cfg (manualTimerStopState st i)).2)
  else (st, [])

/-- The reveal button (rendered only for ALL_AT_ONCE + MANUAL prizes)
invoking `revealResult` through the ref; when it fires `onFinished`, the
session flags clear and the sync effect re-runs. -/
def stepReveal (cfg : SMConfig) (st : SMState) : SMState × List Emit :=
  if cfg.spinMode = SpinMode.ALL_AT_ONCE
      ∧ cfg.autoStopMode = AutoStopMode.MANUAL then
    if ¬st.isSpinning = true ∨ st.target = none then (st, [])
    else
      (syncAuto cfg (appFinish { st with stopped := fillB cfg.digitCount true }),
       [Emit.stopDigit, Emit.finished])
  else (st, [])

/-- The reset effect at `SlotMachine.tsx:131` (prize/mode switch). -/
def stepReset (cfg : SMConfig) (st : SMState) : SMState × List Emit :=
  ({ st with spinning := fillB cfg.digitCount false,
             stopped := fillB cfg.digitCount false,
             manualSpinStarted := false,
             pendingClick := none,
             spinningCount := 0 }, [])

/-- One machine transition. -/
def step (cfg : SMConfig) (st : SMState) : Event → SMState × List Emit
  | Event.click i => stepClick cfg st i
  | Event.targetArrives num => stepTargetArrives cfg st num
  | Event.autoStopFire => stepAutoStopFire cfg st
  | Event.seqFire i => stepSeqFire cfg st i
  | Event.manualTimerFire i => stepManualTimerFire cfg st i
  | Event.reveal => stepReveal cfg st
  | Event.resetStates => stepReset cfg st

/-- The state after a transition. -/
def stepState (cfg : SMConfig) (st : SMState) (e : Event) : SMState :=
  (step cfg st e).1

/-- Run a sequence of events. -/
def run (cfg : SMConfig) (st : SMState) : List Event → SMState
  | [] => st
  | e :: es => run cfg (stepState cfg st e) es

/-! ### Winner commitment (`App.tsx`, `handleSpinFinished`) -/

/-- JavaScript `String.prototype.padStart(targetLength, padChar)`:
prepend copies of `padChar` until the length reaches `targetLength`
(no-op when the string is already long enough). -/
def padStart (str : String) (targetLength : Nat) (padChar : Char) : String :=
  String.mk (List.replicate (targetLength - str.length) padChar) ++ str

/-- The `App.tsx` state touched by `handleSpinFinished`. -/
structure AppDrawState where
  isSpinning : Bool
  isManualSpinActive : Bool
  targetNumber : Option String
  winners : List Winner
  showConfetti : Bool
deriving DecidableEq, Repr

/-- Side effects `handleSpinFinished` triggers. -/
structure FinishEffects where
  playedWin : Bool
deriving DecidableEq, Repr

/-- `handleSpinFinished` from `App.tsx`: clear the spin flags, play the
win sound, show confetti, and — only when a target number is resolved
(JS truthiness, so a non-null, non-empty string) — prepend a `Winner`
whose `number` is the target zero-padded to the prize's `digitCount`;
finally clear the target. `now` models `Date.now()`. -/
def handleSpinFinished (prize : Prize) (now : Nat) (st : AppDrawState) :
    AppDrawState × FinishEffects :=
  let winners' :=
    match st.targetNumber with
    | some t =>
      if t.isEmpty then st.winners
      else
        { id := toString now
          prizeId := prize.id
          prizeName := prize.name
          number := padStart t prize.digitCount '0'
          timestamp := now : Winner } :: st.winners
    | none => st.winners
  ({ isSpinning := false
     isManualSpinActive := false
     targetNumber := none
     winners := winners'
     showConfetti := true },
   { playedWin := true })

/-! ### Auxiliary predicates and helper lemmas for the allocator -/

/-- Every integer of a well-formed remote batch lies in `[minN, maxN]`
(Random.org is asked for integers in that range). -/
def batchInRange (minN maxN : Int) : RemoteOutcome → Prop
  | RemoteOutcome.batch nums => ∀ x ∈ nums, minN ≤ x ∧ x ≤ maxN
  | _ => True

/-- The remote request failed to produce a usable candidate: transport
failure / timeout, an error response, a malformed response, or a batch in
which every candidate is already excluded. -/
def remoteFailed (taken : Finset Int) : RemoteOutcome → Bool
  | RemoteOutcome.failure => true
  | RemoteOutcome.apiError => true
  | RemoteOutcome.malformed => true
  | RemoteOutcome.batch nums => nums.all (fun n => decide (n ∈ taken))

lemma getLocalRandom_bounds (minN maxN : Int) (u : Nat) (h : minN ≤ maxN) :
    minN ≤ getLocalRandom minN maxN u ∧ getLocalRandom minN maxN u ≤ maxN := by
  unfold getLocalRandom
  have hpos : (0 : Int) < maxN - minN + 1 := by omega
  have h1 := Int.emod_nonneg (u : Int) (ne_of_gt hpos)
  have h2 := Int.emod_lt_of_pos (u : Int) hpos
  omega

lemma getRandomNumber_bounds (s : GlobalSettings) (minN maxN : Int)
    (taken : Finset Int) (remote : RemoteOutcome) (u : Nat) (h : minN ≤ maxN)
    (hb : batchInRange minN maxN remote) :
    minN ≤ getRandomNumber s minN maxN taken remote u ∧
      getRandomNumber s minN maxN taken remote u ≤ maxN := by
  simp only [getRandomNumber]
  split
  · exact getLocalRandom_bounds minN maxN u h
  · cases remote with
    | failure => exact getLocalRandom_bounds minN maxN u h
    | apiError => exact getLocalRandom_bounds minN maxN u h
    | malformed => exact getLocalRandom_bounds minN maxN u h
    | batch nums =>
      cases hf : nums.find? (fun n => !decide (n ∈ taken)) with
      | none => simpa [hf] using getLocalRandom_bounds minN maxN u h
      | some n =>
        have hmem := List.mem_of_find?_eq_some hf
        simpa [hf] using hb n hmem

lemma getRandomNumber_local_of_local (s : GlobalSettings) (minN maxN : Int)
    (taken : Finset Int) (remote : RemoteOutcome) (u : Nat)
    (hsrc : s.randomSource = RandomSource.LOCAL) :
    getRandomNumber s minN maxN taken remote u = getLocalRandom minN maxN u := by
  simp only [getRandomNumber]
  rw [if_pos]
  rintro ⟨h1, _⟩
  rw [hsrc] at h1
  cases h1

lemma genLoop_some_spec (s : GlobalSettings) (taken : Finset Int)
    (oracle : Nat → RemoteOutcome) (stream : Nat → Nat) (M : Int) :
    ∀ (fuel a : Nat) (r : Int), genLoop s taken oracle stream M fuel a = some r →
      (s.excludePreviousWinners = true → r ∉ taken) ∧
      ∃ j : Nat,
        r = getRandomNumber s s.minNumber s.maxNumber taken (oracle j) (stream j) := by
  intro fuel
  induction fuel with
  | zero => intro a r h; simp [genLoop] at h
  | succ fuel ih =>
    intro a r h
    simp only [genLoop] at h
    by_cases hgt : ((a + 1 : Nat) : Int) > M
    · rw [if_pos hgt] at h; cases h
    · rw [if_neg hgt] at h
      by_cases hfound : (s.excludePreviousWinners = false ∨
          getRandomNumber s s.minNumber s.maxNumber taken
            (oracle a) (stream a) ∉ taken)
      · rw [if_pos hfound] at h
        have hres := Option.some.inj h
        refine ⟨?_, ⟨a, hres.symm⟩⟩
        intro hex
        rcases hfound with h1 | h2
        · rw [hex] at h1; cases h1
        · rw [← hres]; exact h2
      · rw [if_neg hfound] at h
        exact ih _ _ h

lemma genLoop_none_iff (s : GlobalSettings) (taken : Finset Int)
    (oracle : Nat → RemoteOutcome) (stream : Nat → Nat) (M : Int)
    (hexcl : s.excludePreviousWinners = true) :
    ∀ (fuel a : Nat), M < (a : Int) + (fuel : Int) →
      (genLoop s taken oracle stream M fuel a = none ↔
        ∀ j : Nat, a ≤ j → (j : Int) < M →
          getRandomNumber s s.minNumber s.maxNumber taken (oracle j) (stream j)
            ∈ taken) := by
  intro fuel
  induction fuel with
  | zero =>
    intro a h
    refine iff_of_true rfl ?_
    intro j haj hjM
    exfalso
    have h1 : (a : Int) ≤ (j : Int) := by exact_mod_cast haj
    simp only [Nat.cast_zero, add_zero] at h
    omega
  | succ fuel ih =>
    intro a h
    simp only [genLoop]
    by_cases hgt : ((a + 1 : Nat) : Int) > M
    · rw [if_pos hgt]
      refine iff_of_true rfl ?_
      intro j haj hjM
      exfalso
      have h1 : (a : Int) ≤ (j : Int) := by exact_mod_cast haj
      push_cast at hgt
      omega
    · rw [if_neg hgt]
      push_cast at hgt
      by_cases hfound : (s.excludePreviousWinners = false ∨
          getRandomNumber s s.minNumber s.maxNumber taken
            (oracle a) (stream a) ∉ taken)
      · rw [if_pos hfound]
        refine iff_of_false (by simp) ?_
        intro hall
        have hmem := hall a (le_refl a) (by omega)
        rcases hfound with h1 | h2
        · rw [hexcl] at h1; cases h1
        · exact h2 hmem
      · rw [if_neg hfound]
        have hmem : getRandomNumber s s.minNumber s.maxNumber taken
            (oracle a) (stream a) ∈ taken := by
          by_contra hc
          exact hfound (Or.inr hc)
        have h' : M < ((a + 1 : Nat) : Int) + (fuel : Int) := by push_cast; omega
        rw [ih (a + 1) h']
        constructor
        · intro H j haj hjM
          rcases Nat.eq_or_lt_of_le haj with rfl | hlt
          · exact hmem
          · exact H j hlt hjM
        · intro H j haj hjM
          exact H j (by omega) hjM

lemma length_le_toDigitsCore (b : Nat) :
    ∀ (f n : Nat) (ds : List Char), ds.length ≤ (Nat.toDigitsCore b f n ds).length := by
  intro f
  induction f with
  | zero => intro n ds; simp [Nat.toDigitsCore]
  | succ f ih =>
    intro n ds
    simp only [Nat.toDigitsCore]
    split
    · simp
    · calc ds.length ≤ (Nat.digitChar (n % b) :: ds).length := by simp
        _ ≤ _ := ih _ _

lemma natRepr_ne_empty (n : Nat) : Nat.repr n ≠ "" := by
  intro h
  have hd : (Nat.toDigits 10 n) = ([] : List Char) := by
    have := congrArg String.data h
    simpa [Nat.repr, List.asString] using this
  have h1 : 1 ≤ (Nat.toDigits 10 n).length := by
    simp only [Nat.toDigits, Nat.toDigitsCore]
    split
    · simp
    · calc 1 = ([Nat.digitChar (n % 10)] : List Char).length := by simp
        _ ≤ _ := length_le_toDigitsCore 10 _ _ _
  rw [hd] at h1
  simp at h1

lemma intRepr_ne_empty (v : Int) : Int.repr v ≠ "" := by
  cases v with
  | ofNat n => exact natRepr_ne_empty n
  | negSucc n =>
    intro h
    have := congrArg String.length h
    simp [Int.repr, String.length_append] at this
    exact absurd this.1 (by decide)

/-! ### Concrete inputs used by counterexamples and witnesses -/

/-- Settings with the one-number range `[0, 0]`, exclusion enabled,
local randomness. -/
def unitRangeSettings : GlobalSettings :=
  { minNumber := 0, maxNumber := 0, excludePreviousWinners := true,
    randomSource := RandomSource.LOCAL, randomOrgApiKey := none }

/-- Settings with the two-number range `[0, 1]`, exclusion enabled,
local randomness. -/
def pairRangeSettings : GlobalSettings :=
  { minNumber := 0, maxNumber := 1, excludePreviousWinners := true,
    randomSource := RandomSource.LOCAL, randomOrgApiKey := none }

/-- Settings with the range `[0, 9]`, exclusion enabled, local randomness. -/
def wideRangeSettings : GlobalSettings :=
  { minNumber := 0, maxNumber := 9, excludePreviousWinners := true,
    randomSource := RandomSource.LOCAL, randomOrgApiKey := none }

/-- Settings with Random.org selected and a non-blank API key. -/
def remoteSettings : GlobalSettings :=
  { minNumber := 0, maxNumber := 9, excludePreviousWinners := true,
    randomSource := RandomSource.RANDOM_ORG, randomOrgApiKey := some "key-123" }

/-- A remote oracle whose every request fails in transport. -/
def alwaysFail : Nat → RemoteOutcome := fun _ => RemoteOutcome.failure

/-- A `Uint32` stream that always yields 0. -/
def zeroStream : Nat → Nat := fun _ => 0

/-- A `Uint32` stream that always yields 3. -/
def threeStream : Nat → Nat := fun _ => 3

/-- A `Uint32` stream whose first five samples map onto the excluded
value 0 and whose sixth sample maps onto the free value 1 (range `[0,1]`). -/
def lateValidStream : Nat → Nat := fun n => if n < 5 then 0 else 1

/-! ### Claim C1 -/

/-- C1, counterexample.  The claim says that whenever `max ≥ min` and the
exclusion set is smaller than the range, `generateRandomNumber` returns a
value (never NONE) for every stream of random values.  With the
one-number range `[0, 0]` and an empty exclusion set, the code computes
`maxAttempts = (max - min) * 5 = 0`, so the very first loop iteration
hits `attempts > maxAttempts` and returns `null` even though the single
eligible value 0 was just drawn. -/
theorem allocator_none_despite_free_slot :
    unitRangeSettings.minNumber ≤ unitRangeSettings.maxNumber ∧
    ((∅ : Finset Int).card : Int) <
      unitRangeSettings.maxNumber - unitRangeSettings.minNumber + 1 ∧
    generateRandomNumber unitRangeSettings ∅ alwaysFail zeroStream = none := by
  refine ⟨by decide, by decide, by decide⟩

/-- C1, amended.  `generateRandomNumber` always terminates (it is a total
function of its inputs), and whenever it does return a value, that value
is in `[min, max]` (given in-range remote batches) and — when exclusion is
enabled — outside the exclusion set.  It may return NONE when the code's
attempt budget `5 × (max - min)` passes without an eligible draw, which in
particular always happens when `min = max`. -/
theorem allocator_success_in_range_and_fresh
    (s : GlobalSettings) (taken : Finset Int)
    (oracle : Nat → RemoteOutcome) (stream : Nat → Nat) (str : String)
    (hmm : s.minNumber ≤ s.maxNumber)
    (hb : ∀ n, batchInRange s.minNumber s.maxNumber (oracle n))
    (hsome : generateRandomNumber s taken oracle stream = some str) :
    ∃ v : Int, str = Int.repr v ∧ s.minNumber ≤ v ∧ v ≤ s.maxNumber ∧
      (s.excludePreviousWinners = true → v ∉ taken) := by
  unfold generateRandomNumber at hsome
  by_cases hguard : (s.maxNumber - s.minNumber + 1 ≤ (taken.card : Int)
      ∧ s.excludePreviousWinners = true)
  · rw [if_pos hguard] at hsome; cases hsome
  · rw [if_neg hguard] at hsome
    rw [Option.map_eq_some'] at hsome
    obtain ⟨r, hr, hrepr⟩ := hsome
    obtain ⟨hfresh, j, hj⟩ := genLoop_some_spec s taken oracle stream _ _ _ _ hr
    have hbnd := getRandomNumber_bounds s s.minNumber s.maxNumber taken
      (oracle j) (stream j) hmm (hb j)
    rw [← hj] at hbnd
    exact ⟨r, hrepr.symm, hbnd.1, hbnd.2, hfresh⟩

/-- C1, witness for the amended theorem: with range `[0, 9]`, remote
permanently failing and a local stream that always maps to 3, the
allocator returns `some "3"`, which the theorem certifies to be the
decimal string of an in-range, non-excluded value. -/
theorem allocator_success_witness :
    ∃ v : Int, "3" = Int.repr v ∧
      wideRangeSettings.minNumber ≤ v ∧ v ≤ wideRangeSettings.maxNumber ∧
      (wideRangeSettings.excludePreviousWinners = true → v ∉ (∅ : Finset Int)) :=
  allocator_success_in_range_and_fresh wideRangeSettings ∅ alwaysFail threeStream "3"
    (by decide) (fun n => trivial) (by decide)

/-! ### Claim C3 -/

/-- C3, counterexample.  The claim says the local allocator retries until
it draws a value outside the exclusion set or until exactly
`5 × range size` attempts are exhausted, returning NONE only in the
exhausted case.  With range `[0, 1]` (range size 2, so a claimed budget of
10 attempts) and exclusion set `{0}`, a stream whose sixth sample draws
the free value 1 still yields NONE: the code's actual budget is
`(max - min) * 5 = 5`, and the loop returns `null` on attempt 6 even
though that attempt drew an eligible value within the claimed budget. -/
theorem allocator_none_within_claimed_budget :
    generateRandomNumber pairRangeSettings {0} alwaysFail lateValidStream = none ∧
    getLocalRandom pairRangeSettings.minNumber pairRangeSettings.maxNumber
      (lateValidStream 5) ∉ ({0} : Finset Int) ∧
    (5 : Int) + 1 ≤
      5 * (pairRangeSettings.maxNumber - pairRangeSettings.minNumber + 1) := by
  refine ⟨by decide, by decide, by decide⟩

/-- C3, amended.  In local generation with exclusion enabled and a
non-exhausted pool, the allocator returns NONE exactly when each of the
first `maxAttempts = 5 × (max - min)` draws (not `5 × range size`) lands
in the exclusion set; equivalently, it returns a value exactly when some
draw among the first `5 × (max - min)` falls outside the exclusion set
(one further draw is made on the final iteration but its result is
discarded). -/
theorem local_allocator_none_iff_all_draws_taken
    (s : GlobalSettings) (taken : Finset Int)
    (oracle : Nat → RemoteOutcome) (stream : Nat → Nat)
    (hsrc : s.randomSource = RandomSource.LOCAL)
    (hexcl : s.excludePreviousWinners = true)
    (hcard : (taken.card : Int) < s.maxNumber - s.minNumber + 1) :
    (generateRandomNumber s taken oracle stream = none ↔
      ∀ j : Nat, (j : Int) < (s.maxNumber - s.minNumber) * 5 →
        getLocalRandom s.minNumber s.maxNumber (stream j) ∈ taken) := by
  unfold generateRandomNumber
  rw [if_neg (by rintro ⟨h1, _⟩; omega)]
  rw [Option.map_eq_none']
  have hfuel : (s.maxNumber - s.minNumber) * 5 <
      ((0 : Nat) : Int) + ((((s.maxNumber - s.minNumber) * 5).toNat + 1 : Nat) : Int) := by
    have := Int.self_le_toNat ((s.maxNumber - s.minNumber) * 5)
    push_cast
    omega
  rw [genLoop_none_iff s taken oracle stream _ hexcl _ 0 hfuel]
  constructor
  · intro H j hj
    have := H j (Nat.zero_le j) hj
    rwa [getRandomNumber_local_of_local s _ _ _ _ _ hsrc] at this
  · intro H j _ hj
    rw [getRandomNumber_local_of_local s _ _ _ _ _ hsrc]
    exact H j hj

/-- C3, witness for the amended theorem: with range `[0, 1]`, exclusion
set `{0}` and a stream that always maps to the excluded value 0, every
one of the first `5 × (max - min) = 5` draws is excluded, so the theorem
yields NONE. -/
theorem local_allocator_none_witness :
    generateRandomNumber pairRangeSettings {0} alwaysFail zeroStream = none := by
  rw [local_allocator_none_iff_all_draws_taken pairRangeSettings {0} alwaysFail
    zeroStream rfl rfl (by decide)]
  intro j _
  show getLocalRandom pairRangeSettings.minNumber pairRangeSettings.maxNumber 0
      ∈ ({0} : Finset Int)
  decide

/-! ### Claim C4 -/

/-- C4, confirmed.  When exclusion is enabled and the exclusion set is at
least as large as the range, `generateRandomNumber` returns NONE from the
pool-exhaustion guard before the retry loop, independently of the remote
oracle and of the local random stream (no draw is made and no remote
request is consulted). -/
theorem pool_exhausted_returns_none_without_attempt
    (s : GlobalSettings) (taken : Finset Int)
    (hexcl : s.excludePreviousWinners = true)
    (hfull : s.maxNumber - s.minNumber + 1 ≤ (taken.card : Int)) :
    ∀ (oracle oracle' : Nat → RemoteOutcome) (stream stream' : Nat → Nat),
      generateRandomNumber s taken oracle stream = none ∧
      generateRandomNumber s taken oracle stream =
        generateRandomNumber s taken oracle' stream' := by
  intro oracle oracle' stream stream'
  unfold generateRandomNumber
  rw [if_pos ⟨hfull, hexcl⟩, if_pos ⟨hfull, hexcl⟩]
  exact ⟨rfl, rfl⟩

/-- C4, witness: range `[0, 1]` with both values already drawn. -/
theorem pool_exhausted_witness :
    generateRandomNumber pairRangeSettings {0, 1} alwaysFail zeroStream = none ∧
    generateRandomNumber pairRangeSettings {0, 1} alwaysFail zeroStream =
      generateRandomNumber pairRangeSettings {0, 1} alwaysFail lateValidStream :=
  pool_exhausted_returns_none_without_attempt pairRangeSettings {0, 1}
    rfl (by decide) alwaysFail alwaysFail zeroStream lateValidStream

/-! ### Claim C8 -/

/-- C8, confirmed.  With Random.org configured and an API key present, any
failed remote attempt — transport failure / timeout, an error response, a
malformed response, or a batch whose every candidate is excluded — makes
`getRandomNumber` return the local fallback value for that attempt; the
function is total, so no error is ever raised to the caller. -/
theorem remote_failure_falls_back_to_local
    (s : GlobalSettings) (minN maxN : Int) (taken : Finset Int)
    (remote : RemoteOutcome) (u : Nat)
    (hremote : s.randomSource = RandomSource.RANDOM_ORG)
    (hkey : hasApiKey s = true)
    (hfail : remoteFailed taken remote = true) :
    getRandomNumber s minN maxN taken remote u = getLocalRandom minN maxN u := by
  simp only [getRandomNumber]
  rw [if_neg (not_not_intro ⟨hremote, hkey⟩)]
  cases remote with
  | failure => rfl
  | apiError => rfl
  | malformed => rfl
  | batch nums =>
    have hnone : nums.find? (fun n => !decide (n ∈ taken)) = none := by
      rw [List.find?_eq_none]
      intro x hx
      have hall := List.all_eq_true.mp hfail x hx
      simp only [decide_eq_true_eq] at hall
      simp [hall]
    simp [hnone]

/-- C8, witness: with an API key configured and a transport failure, the
attempt's result equals the local fallback value. -/
theorem remote_failure_fallback_witness :
    getRandomNumber remoteSettings 0 9 ∅ RemoteOutcome.failure 7 =
      getLocalRandom 0 9 7 :=
  remote_failure_falls_back_to_local remoteSettings 0 9 ∅ RemoteOutcome.failure 7
    rfl (by decide) (by decide)

/-! ### Claims C9 and C10 -/

/-- A MANUAL + CLICK prize with three digits (the shape of the default
prizes in `constants.ts`). -/
def specialPrize : Prize :=
  { id := "g-db", name := "Grand", quantity := 1, spinMode := SpinMode.MANUAL,
    spinDuration := 15000, digitCount := 3,
    manualRevealMode := some ManualRevealMode.CLICK, autoStopMode := none }

/-- An app state mid-session with the allocated target `"3"`. -/
def stWithTarget3 : AppDrawState :=
  { isSpinning := true, isManualSpinActive := true, targetNumber := some "3",
    winners := [], showConfetti := false }

/-- An app state mid-session with no resolved target. -/
def stNoTarget : AppDrawState :=
  { isSpinning := true, isManualSpinActive := false, targetNumber := none,
    winners := [], showConfetti := false }

/-- C9, confirmed.  When `handleSpinFinished` commits a winner for a
target number produced by the allocator, the committed record's `number`
field is exactly the allocated value's decimal string zero-padded (via
`padStart`) to the prize's `digitCount`, and it is prepended to the
winners list. -/
theorem winner_number_zero_padded
    (prize : Prize) (now : Nat) (st : AppDrawState)
    (s : GlobalSettings) (taken : Finset Int)
    (oracle : Nat → RemoteOutcome) (stream : Nat → Nat) (numStr : String)
    (hsome : generateRandomNumber s taken oracle stream = some numStr)
    (htgt : st.targetNumber = some numStr) :
    ∃ w : Winner,
      (handleSpinFinished prize now st).1.winners = w :: st.winners ∧
      w.number = padStart numStr prize.digitCount '0' := by
  have hne : numStr ≠ "" := by
    unfold generateRandomNumber at hsome
    by_cases hguard : (s.maxNumber - s.minNumber + 1 ≤ (taken.card : Int)
        ∧ s.excludePreviousWinners = true)
    · rw [if_pos hguard] at hsome; cases hsome
    · rw [if_neg hguard] at hsome
      obtain ⟨r, _, hrepr⟩ := Option.map_eq_some'.mp hsome
      exact hrepr ▸ intRepr_ne_empty r
  have hie : numStr.isEmpty = false := by
    cases hie2 : numStr.isEmpty
    · rfl
    · exact absurd ((String.isEmpty_iff numStr).mp hie2) hne
  simp only [handleSpinFinished, htgt, hie, Bool.false_eq_true, if_false]
  exact ⟨_, rfl, rfl⟩

/-- C9, witness: committing the allocator result `"3"` for a three-digit
prize records the number `"003"`. -/
theorem winner_number_zero_padded_witness :
    ∃ w : Winner,
      (handleSpinFinished specialPrize 777 stWithTarget3).1.winners =
        w :: stWithTarget3.winners ∧
      w.number = padStart "3" specialPrize.digitCount '0' :=
  winner_number_zero_padded specialPrize 777 stWithTarget3 wideRangeSettings ∅
    alwaysFail threeStream "3" (by decide) rfl

/-- C10, confirmed.  When `handleSpinFinished` runs with no resolved
target number, the winners list is unchanged, while the session flags are
still cleared, the win sound still plays and the confetti is still shown. -/
theorem finish_without_target_preserves_winners
    (prize : Prize) (now : Nat) (st : AppDrawState)
    (htgt : st.targetNumber = none) :
    (handleSpinFinished prize now st).1.winners = st.winners ∧
    (handleSpinFinished prize now st).1.isSpinning = false ∧
    (handleSpinFinished prize now st).1.isManualSpinActive = false ∧
    (handleSpinFinished prize now st).1.targetNumber = none ∧
    (handleSpinFinished prize now st).1.showConfetti = true ∧
    (handleSpinFinished prize now st).2.playedWin = true := by
  simp [handleSpinFinished, htgt]

/-- C10, witness: the second component of the frame property at a
concrete no-target state. -/
theorem finish_without_target_witness :
    (handleSpinFinished specialPrize 777 stNoTarget).1.winners =
      stNoTarget.winners ∧
    (handleSpinFinished specialPrize 777 stNoTarget).1.isSpinning = false ∧
    (handleSpinFinished specialPrize 777 stNoTarget).1.isManualSpinActive = false ∧
    (handleSpinFinished specialPrize 777 stNoTarget).1.targetNumber = none ∧
    (handleSpinFinished specialPrize 777 stNoTarget).1.showConfetti = true ∧
    (handleSpinFinished specialPrize 777 stNoTarget).2.playedWin = true :=
  finish_without_target_preserves_winners specialPrize 777 stNoTarget rfl

/-! ### Helper lemmas for the slot-machine model -/

lemma getD_set_self (l : List Bool) (i : Nat) (b : Bool) (h : i < l.length) :
    (l.set i b).getD i false = b := by
  simp [List.getD, List.getElem?_set_self, h]

lemma getD_set_ne (l : List Bool) (i j : Nat) (b : Bool) (h : i ≠ j) :
    (l.set i b).getD j false = l.getD j false := by
  simp [List.getD, List.getElem?_set_ne, h]

lemma getD_replicate (n i : Nat) (b : Bool) :
    (List.replicate n b).getD i false = if i < n then b else false := by
  by_cases h : i < n <;> simp [List.getD, List.getElem?_replicate, h]

lemma getD_true_lt_length (l : List Bool) (i : Nat)
    (h : l.getD i false = true) : i < l.length := by
  by_contra hc
  rw [List.getD_eq_default] at h
  · cases h
  · omega

lemma getD_set_true (l : List Bool) (i j : Nat)
    (h : l.getD j false = true) : (l.set i true).getD j false = true := by
  by_cases hij : i = j
  · subst hij
    rw [getD_set_self l i true (getD_true_lt_length l i h)]
  · rwa [getD_set_ne l i j true hij]

/-! ### Concrete configurations for counterexamples and witnesses -/

/-- A three-digit SEQUENTIAL prize configuration. -/
def seqCfg : SMConfig :=
  { digitCount := 3, spinMode := SpinMode.SEQUENTIAL, spinDuration := 1000,
    manualRevealMode := ManualRevealMode.CLICK, autoStopMode := AutoStopMode.TIMER }

/-- A two-digit SEQUENTIAL prize configuration. -/
def seqCfg2 : SMConfig :=
  { digitCount := 2, spinMode := SpinMode.SEQUENTIAL, spinDuration := 1000,
    manualRevealMode := ManualRevealMode.CLICK, autoStopMode := AutoStopMode.TIMER }

/-- A three-digit OPERATOR_PACED (MANUAL + CLICK) prize configuration. -/
def clickCfg : SMConfig :=
  { digitCount := 3, spinMode := SpinMode.MANUAL, spinDuration := 1000,
    manualRevealMode := ManualRevealMode.CLICK, autoStopMode := AutoStopMode.MANUAL }

/-- A three-digit SIMULTANEOUS (ALL_AT_ONCE + MANUAL stop) prize
configuration. -/
def revealCfg : SMConfig :=
  { digitCount := 3, spinMode := SpinMode.ALL_AT_ONCE, spinDuration := 5000,
    manualRevealMode := ManualRevealMode.CLICK, autoStopMode := AutoStopMode.MANUAL }

/-- The machine state of `seqCfg` right after a target has been allocated
(all digits spinning). -/
def seqActive : SMState := (stepTargetArrives seqCfg (initSM seqCfg) "123").1

/-- The machine state of `revealCfg` right after a target has been
allocated (all digits spinning, waiting for the reveal click). -/
def revealActive : SMState := (stepTargetArrives revealCfg (initSM revealCfg) "007").1

/-! ### Claim C5 -/

/-- C5, confirmed.  In SEQUENTIAL mode with an active session and a
resolved target, the auto-stop effect schedules digit `i` to stop after
`spinDuration × (i + 1)`; each firing stops its digit and emits
`onStopDigit`, and `onFinished` is emitted exactly when the fired digit
is the last one (`digitCount - 1`). -/
theorem sequential_schedule_and_completion
    (cfg : SMConfig) (st : SMState) (t : String) (i : Nat)
    (hmode : cfg.spinMode = SpinMode.SEQUENTIAL)
    (hspin : st.isSpinning = true)
    (htgt : st.target = some t)
    (hi : i < cfg.digitCount)
    (hlen : st.stopped.length = cfg.digitCount) :
    (sequentialSchedule cfg st).get? i = some (cfg.spinDuration * (i + 1), i) ∧
    Emit.stopDigit ∈ (step cfg st (Event.seqFire i)).2 ∧
    (step cfg st (Event.seqFire i)).1.stopped.getD i false = true ∧
    (Emit.finished ∈ (step cfg st (Event.seqFire i)).2 ↔ i = cfg.digitCount - 1) := by
  have htgt' : st.target ≠ none := by rw [htgt]; intro h; cases h
  constructor
  · rw [sequentialSchedule, if_pos ⟨hmode, hspin, htgt'⟩]
    rw [List.get?_eq_getElem?, List.getElem?_map, List.getElem?_range hi]
    rfl
  · by_cases hic : i = cfg.digitCount - 1
    · have hstep : step cfg st (Event.seqFire i) =
          (syncAuto cfg (appFinish { st with stopped := st.stopped.set i true }),
           [Emit.stopDigit, Emit.finished]) := by
        show stepSeqFire cfg st i = _
        rw [stepSeqFire, if_pos ⟨hmode, hspin, htgt'⟩, if_pos hic]
      rw [hstep]
      refine ⟨by simp, ?_, by simp [hic]⟩
      show (syncAuto cfg _).stopped.getD i false = true
      rw [syncAuto, if_neg (by rw [hmode]; intro h; cases h)]
      show (fillB cfg.digitCount _).getD i false = true
      rw [fillB, getD_replicate, if_pos hi]
      rfl
    · have hstep : step cfg st (Event.seqFire i) =
          ({ st with stopped := st.stopped.set i true }, [Emit.stopDigit]) := by
        show stepSeqFire cfg st i = _
        rw [stepSeqFire, if_pos ⟨hmode, hspin, htgt'⟩, if_neg hic]
      rw [hstep]
      refine ⟨by simp, ?_, by simp [hic]⟩
      show (st.stopped.set i true).getD i false = true
      rw [getD_set_self]
      omega

/-- C5, witness: in the three-digit SEQUENTIAL session, the last digit's
timeout is at `1000 × 3` and its firing emits the completion. -/
theorem sequential_schedule_witness :
    (sequentialSchedule seqCfg seqActive).get? 2 =
      some (seqCfg.spinDuration * (2 + 1), 2) ∧
    Emit.stopDigit ∈ (step seqCfg seqActive (Event.seqFire 2)).2 ∧
    (step seqCfg seqActive (Event.seqFire 2)).1.stopped.getD 2 false = true ∧
    (Emit.finished ∈ (step seqCfg seqActive (Event.seqFire 2)).2 ↔
      2 = seqCfg.digitCount - 1) :=
  sequential_schedule_and_completion seqCfg seqActive "123" 2
    rfl (by decide) (by decide) (by decide) (by decide)

/-! ### Claim C6 -/

/-- C6, confirmed.  In ALL_AT_ONCE mode with manual auto-stop: no timeout
is scheduled; `revealResult` while the session is inactive or the target
unresolved changes nothing and emits nothing; once active with a resolved
target, one reveal stops all digits, clears the spin flag and emits the
completion exactly once, and a second reveal is a no-op. -/
theorem manual_reveal_noop_and_single_completion
    (cfg : SMConfig) (st : SMState) (t : String)
    (hmode : cfg.spinMode = SpinMode.ALL_AT_ONCE)
    (hstop : cfg.autoStopMode = AutoStopMode.MANUAL) :
    (st.isSpinning = false ∨ st.target = none →
      step cfg st Event.reveal = (st, [])) ∧
    (st.isSpinning = true → st.target = some t →
      (step cfg st Event.reveal).2.count Emit.finished = 1 ∧
      (step cfg st Event.reveal).1.stopped = fillB cfg.digitCount true ∧
      (step cfg st Event.reveal).1.spinning = fillB cfg.digitCount false ∧
      (step cfg st Event.reveal).1.isSpinning = false ∧
      allAtOnceSchedule cfg st = none ∧
      step cfg (step cfg st Event.reveal).1 Event.reveal =
        ((step cfg st Event.reveal).1, [])) := by
  constructor
  · intro hno
    show stepReveal cfg st = (st, [])
    rw [stepReveal, if_pos ⟨hmode, hstop⟩, if_pos]
    rcases hno with h | h
    · left; rw [h]; intro hc; cases hc
    · right; exact h
  · intro hspin htgt
    have htgt' : st.target ≠ none := by rw [htgt]; intro h; cases h
    have hcond : ¬(¬st.isSpinning = true ∨ st.target = none) := by
      rintro (h | h)
      · exact h hspin
      · exact htgt' h
    have hstep : step cfg st Event.reveal =
        (syncAuto cfg (appFinish { st with stopped := fillB cfg.digitCount true }),
         [Emit.stopDigit, Emit.finished]) := by
      show stepReveal cfg st = _
      rw [stepReveal, if_pos ⟨hmode, hstop⟩, if_neg hcond]
    have hmanual : ¬cfg.spinMode = SpinMode.MANUAL := by
      rw [hmode]; intro h; cases h
    refine ⟨?_, ?_, ?_, ?_, ?_, ?_⟩
    · rw [hstep]
      show List.count Emit.finished [Emit.stopDigit, Emit.finished] = 1
      decide
    · rw [hstep]
      show (syncAuto cfg _).stopped = _
      rw [syncAuto, if_neg hmanual]
      rfl
    · rw [hstep]
      show (syncAuto cfg _).spinning = _
      rw [syncAuto, if_neg hmanual]
      rfl
    · rw [hstep]
      show (syncAuto cfg _).isSpinning = false
      rw [syncAuto, if_neg hmanual]
      rfl
    · rw [allAtOnceSchedule, if_pos ⟨hmode, hspin, htgt'⟩, if_pos hstop]
    · rw [hstep]
      show stepReveal cfg _ = _
      rw [stepReveal, if_pos ⟨hmode, hstop⟩, if_pos]
      left
      show ¬(syncAuto cfg _).isSpinning = true
      rw [syncAuto, if_neg hmanual]
      intro hc
      cases hc

/-- C6, witness: the reveal flow at the concrete ALL_AT_ONCE + MANUAL
session `revealActive`, plus the no-op on the freshly initialized
(inactive) machine. -/
theorem manual_reveal_witness :
    step revealCfg (initSM revealCfg) Event.reveal = (initSM revealCfg, []) ∧
    (step revealCfg revealActive Event.reveal).2.count Emit.finished = 1 ∧
    (step revealCfg revealActive Event.reveal).1.stopped =
      fillB revealCfg.digitCount true ∧
    (step revealCfg revealActive Event.reveal).1.spinning =
      fillB revealCfg.digitCount false ∧
    (step revealCfg revealActive Event.reveal).1.isSpinning = false ∧
    allAtOnceSchedule revealCfg revealActive = none ∧
    step revealCfg (step revealCfg revealActive Event.reveal).1 Event.reveal =
      ((step revealCfg revealActive Event.reveal).1, []) := by
  refine ⟨?_, ?_⟩
  · exact (manual_reveal_noop_and_single_completion revealCfg (initSM revealCfg)
      "007" rfl rfl).1 (Or.inl rfl)
  · exact (manual_reveal_noop_and_single_completion revealCfg revealActive
      "007" rfl rfl).2 (by decide) (by decide)

/-! ### Invariant machinery for claims C2 and C7 -/

/-- No digit is flagged both spinning and stopped. -/
def NeverBoth (st : SMState) : Prop :=
  ∀ i, ¬(st.spinning.getD i false = true ∧ st.stopped.getD i false = true)

/-- At most one digit is spinning. -/
def AtMostOneSpinning (st : SMState) : Prop :=
  ∀ i j, st.spinning.getD i false = true → st.spinning.getD j false = true → i = j

lemma getD_fillB_false (n i : Nat) : (fillB n false).getD i false = false := by
  rw [fillB, getD_replicate]
  split <;> rfl

lemma neverBoth_of_spinning_false (st : SMState)
    (h : ∀ i, st.spinning.getD i false = false) : NeverBoth st := by
  rintro i ⟨h1, -⟩
  rw [h i] at h1
  cases h1

lemma neverBoth_of_stopped_false (st : SMState)
    (h : ∀ i, st.stopped.getD i false = false) : NeverBoth st := by
  rintro i ⟨-, h2⟩
  rw [h i] at h2
  cases h2

lemma atMostOne_of_spinning_false (st : SMState)
    (h : ∀ i, st.spinning.getD i false = false) : AtMostOneSpinning st := by
  intro i j h1 _
  rw [h i] at h1
  cases h1

lemma getD_of_set_false (l : List Bool) (i j : Nat)
    (h : (l.set i false).getD j false = true) :
    l.getD j false = true ∧ i ≠ j := by
  by_cases hij : i = j
  · subst hij
    exfalso
    by_cases hlt : i < l.length
    · rw [getD_set_self l i false hlt] at h; cases h
    · rw [List.set_eq_of_length_le (by omega)] at h
      have := getD_true_lt_length l i h
      omega
  · rw [getD_set_ne l i j false hij] at h
    exact ⟨h, hij⟩

lemma getD_of_set_true (l : List Bool) (i j : Nat)
    (h : (l.set i true).getD j false = true) :
    j = i ∨ l.getD j false = true := by
  by_cases hij : i = j
  · exact Or.inl hij.symm
  · rw [getD_set_ne l i j true hij] at h
    exact Or.inr h

lemma any_eq_false_getD (l : List Bool) (h : l.any id = false) (k : Nat) :
    l.getD k false = false := by
  rw [List.any_eq_false] at h
  rw [List.getD_eq_getElem?_getD]
  cases hk : l[k]? with
  | none => rfl
  | some b =>
    have hb := h b (List.getElem?_mem hk)
    simp only [id] at hb
    simp [hk, Bool.eq_false_iff.mpr hb]

lemma neverBoth_stopDigitSpin (st : SMState) (i : Nat) (h : NeverBoth st) :
    NeverBoth (stopDigitSpin st i).1 := by
  rintro j ⟨h1, h2⟩
  obtain ⟨h1', hij⟩ := getD_of_set_false st.spinning i j h1
  rcases getD_of_set_true st.stopped i j h2 with rfl | h2'
  · exact hij rfl
  · exact h j ⟨h1', h2'⟩

lemma neverBoth_startDigitSpin (st : SMState) (i : Nat) (h : NeverBoth st)
    (hstop : st.stopped.getD i false = false) :
    NeverBoth (startDigitSpin st i).1 := by
  rintro j ⟨h1, h2⟩
  have h2' : st.stopped.getD j false = true := h2
  rcases getD_of_set_true st.spinning i j h1 with hji | h1'
  · rw [hji, hstop] at h2'; cases h2'
  · exact h j ⟨h1', h2'⟩

lemma atMostOne_stopDigitSpin (st : SMState) (i : Nat) (h : AtMostOneSpinning st) :
    AtMostOneSpinning (stopDigitSpin st i).1 := by
  intro a b h1 h2
  obtain ⟨h1', -⟩ := getD_of_set_false st.spinning i a h1
  obtain ⟨h2', -⟩ := getD_of_set_false st.spinning i b h2
  exact h a b h1' h2'

lemma atMostOne_startDigitSpin (st : SMState) (i : Nat)
    (h : ∀ k, st.spinning.getD k false = false) :
    AtMostOneSpinning (startDigitSpin st i).1 := by
  intro a b h1 h2
  have ha := getD_of_set_true st.spinning i a h1
  have hb := getD_of_set_true st.spinning i b h2
  rcases ha with ha | ha
  · rcases hb with hb | hb
    · rw [ha, hb]
    · rw [h b] at hb; cases hb
  · rw [h a] at ha; cases ha

lemma manualAllStoppedCheck_spinning (cfg : SMConfig) (st : SMState) :
    (manualAllStoppedCheck cfg st).1.spinning = st.spinning := by
  rw [manualAllStoppedCheck]
  split <;> rfl

lemma manualAllStoppedCheck_stopped (cfg : SMConfig) (st : SMState) :
    (manualAllStoppedCheck cfg st).1.stopped = st.stopped := by
  rw [manualAllStoppedCheck]
  split <;> rfl

lemma neverBoth_arrays (st st' : SMState) (hsp : st'.spinning = st.spinning)
    (hst : st'.stopped = st.stopped) (h : NeverBoth st) : NeverBoth st' := by
  intro i
  rw [hsp, hst]
  exact h i

lemma atMostOne_arrays (st st' : SMState) (hsp : st'.spinning = st.spinning)
    (h : AtMostOneSpinning st) : AtMostOneSpinning st' := by
  intro i j
  rw [hsp]
  exact h i j

lemma neverBoth_targetClearedReset (cfg : SMConfig) (st : SMState)
    (h : NeverBoth st) : NeverBoth (targetClearedReset cfg st) := by
  rw [targetClearedReset]
  split
  · exact neverBoth_of_spinning_false _ (fun i => getD_fillB_false _ _)
  · exact h

lemma atMostOne_targetClearedReset (cfg : SMConfig) (st : SMState)
    (h : AtMostOneSpinning st) : AtMostOneSpinning (targetClearedReset cfg st) := by
  rw [targetClearedReset]
  split
  · exact atMostOne_of_spinning_false _ (fun i => getD_fillB_false _ _)
  · exact h

/-- If a non-spinning digit is clickable, no digit is spinning at all. -/
lemma clickable_no_spin (cfg : SMConfig) (st : SMState) (i : Nat)
    (hclick : isDigitClickable cfg st i = true)
    (hnsp : st.spinning.getD i false = false) :
    ∀ k, st.spinning.getD k false = false := by
  intro k
  rw [isDigitClickable] at hclick
  by_cases h1 : cfg.spinMode ≠ SpinMode.MANUAL
  · rw [if_pos h1] at hclick; cases hclick
  · rw [if_neg h1] at hclick
    by_cases h2 : cfg.manualRevealMode = ManualRevealMode.TIMER
    · rw [if_pos h2] at hclick; cases hclick
    · rw [if_neg h2] at hclick
      rw [hnsp] at hclick
      rw [if_neg (by intro hc; cases hc)] at hclick
      by_cases h3 : isAnyDigitSpinning st = true
      · rw [if_pos h3] at hclick; cases hclick
      · exact any_eq_false_getD st.spinning (Bool.eq_false_iff.mpr h3) k

lemma clickCycleStart_spinning (cfg : SMConfig) (st : SMState) :
    (clickCycleStart cfg st).spinning = st.spinning := by
  rw [clickCycleStart]
  split <;> rfl

lemma clickCycleStart_target (cfg : SMConfig) (st : SMState) :
    (clickCycleStart cfg st).target = st.target := by
  rw [clickCycleStart]
  split <;> rfl

lemma neverBoth_clickCycleStart (cfg : SMConfig) (st : SMState)
    (h : NeverBoth st) : NeverBoth (clickCycleStart cfg st) := by
  rw [clickCycleStart]
  split
  · exact neverBoth_of_stopped_false _ (fun k => getD_fillB_false _ _)
  · exact h

lemma clickCycleStart_stopped_getD_false (cfg : SMConfig) (st : SMState) (i : Nat)
    (h4 : ¬(st.stopped.getD i false = true ∧ ¬areAllDigitsStopped st = true)) :
    (clickCycleStart cfg st).stopped.getD i false = false := by
  rw [clickCycleStart]
  by_cases hall : areAllDigitsStopped st = true
  · rw [if_pos hall]
    exact getD_fillB_false _ _
  · rw [if_neg hall]
    show st.stopped.getD i false = false
    cases hgd : st.stopped.getD i false
    · rfl
    · exact absurd ⟨hgd, hall⟩ h4

lemma neverBoth_handleDigitClick (cfg : SMConfig) (st : SMState) (i : Nat)
    (h : NeverBoth st) : NeverBoth (handleDigitClick cfg st i).1 := by
  rw [handleDigitClick]
  by_cases h1 : cfg.spinMode ≠ SpinMode.MANUAL
  · rw [if_pos h1]; exact h
  rw [if_neg h1]
  by_cases h2 : cfg.manualRevealMode = ManualRevealMode.TIMER
  · rw [if_pos h2]; exact h
  rw [if_neg h2]
  by_cases h3 : st.spinning.getD i false = true
  · rw [if_pos h3]; exact neverBoth_stopDigitSpin st i h
  rw [if_neg h3]
  by_cases h4 : st.stopped.getD i false = true ∧ ¬areAllDigitsStopped st = true
  · rw [if_pos h4]; exact h
  rw [if_neg h4]
  by_cases h5 : ¬st.manualSpinStarted = true ∨ areAllDigitsStopped st = true
  · rw [if_pos h5]
    by_cases h6 : st.target = none
    · rw [if_pos h6]
      exact neverBoth_arrays _ _ rfl rfl (neverBoth_clickCycleStart cfg st h)
    · rw [if_neg h6]
      exact neverBoth_startDigitSpin _ i (neverBoth_clickCycleStart cfg st h)
        (clickCycleStart_stopped_getD_false cfg st i h4)
  · rw [if_neg h5]
    by_cases h6 : st.target = none
    · rw [if_pos h6]; exact h
    · rw [if_neg h6]
      push_neg at h5
      refine neverBoth_startDigitSpin st i h ?_
      cases hgd : st.stopped.getD i false
      · rfl
      · exact absurd ⟨hgd, h5.2⟩ h4

lemma neverBoth_clickDigit (cfg : SMConfig) (st : SMState) (i : Nat)
    (h : NeverBoth st) : NeverBoth (clickDigit cfg st i).1 := by
  rw [clickDigit]
  split
  · exact neverBoth_handleDigitClick cfg st i h
  · exact h

lemma atMostOne_handleDigitClick (cfg : SMConfig) (st : SMState) (i : Nat)
    (h : AtMostOneSpinning st)
    (hclick : isDigitClickable cfg st i = true) :
    AtMostOneSpinning (handleDigitClick cfg st i).1 := by
  rw [handleDigitClick]
  by_cases h1 : cfg.spinMode ≠ SpinMode.MANUAL
  · rw [if_pos h1]; exact h
  rw [if_neg h1]
  by_cases h2 : cfg.manualRevealMode = ManualRevealMode.TIMER
  · rw [if_pos h2]; exact h
  rw [if_neg h2]
  by_cases h3 : st.spinning.getD i false = true
  · rw [if_pos h3]; exact atMostOne_stopDigitSpin st i h
  rw [if_neg h3]
  have hnone : ∀ k, st.spinning.getD k false = false :=
    clickable_no_spin cfg st i hclick (Bool.eq_false_iff.mpr h3)
  have hnone' : ∀ k, (clickCycleStart cfg st).spinning.getD k false = false := by
    intro k
    rw [clickCycleStart_spinning]
    exact hnone k
  by_cases h4 : st.stopped.getD i false = true ∧ ¬areAllDigitsStopped st = true
  · rw [if_pos h4]; exact h
  rw [if_neg h4]
  by_cases h5 : ¬st.manualSpinStarted = true ∨ areAllDigitsStopped st = true
  · rw [if_pos h5]
    by_cases h6 : st.target = none
    · rw [if_pos h6]
      exact atMostOne_arrays _ _ rfl
        (atMostOne_of_spinning_false _ hnone')
    · rw [if_neg h6]
      exact atMostOne_startDigitSpin _ i hnone'
  · rw [if_neg h5]
    by_cases h6 : st.target = none
    · rw [if_pos h6]; exact h
    · rw [if_neg h6]
      exact atMostOne_startDigitSpin st i hnone

lemma atMostOne_clickDigit (cfg : SMConfig) (st : SMState) (i : Nat)
    (h : AtMostOneSpinning st) : AtMostOneSpinning (clickDigit cfg st i).1 := by
  rw [clickDigit]
  split
  · next hclick => exact atMostOne_handleDigitClick cfg st i h hclick
  · exact h

lemma pendingClickEffect_stopped (cfg : SMConfig) (st : SMState) :
    (pendingClickEffect cfg st).1.stopped = st.stopped := by
  rw [pendingClickEffect]
  split
  · split <;> rfl
  · rfl

lemma pendingClickEffect_isSpinning (cfg : SMConfig) (st : SMState) :
    (pendingClickEffect cfg st).1.isSpinning = st.isSpinning := by
  rw [pendingClickEffect]
  split
  · split <;> rfl
  · rfl

lemma neverBoth_pendingClickEffect_of_stopped_false (cfg : SMConfig)
    (st : SMState) (h : ∀ k, st.stopped.getD k false = false) :
    NeverBoth (pendingClickEffect cfg st).1 := by
  rw [pendingClickEffect]
  split
  · next j _ =>
      split
      · exact neverBoth_arrays _ _ rfl rfl
          (neverBoth_startDigitSpin st j (neverBoth_of_stopped_false st h) (h j))
      · exact neverBoth_of_stopped_false st h
  · exact neverBoth_of_stopped_false st h

lemma atMostOne_pendingClickEffect_of_none (cfg : SMConfig) (st : SMState)
    (h : ∀ k, st.spinning.getD k false = false) :
    AtMostOneSpinning (pendingClickEffect cfg st).1 := by
  rw [pendingClickEffect]
  split
  · next j _ =>
      split
      · exact atMostOne_arrays _ _ rfl (atMostOne_startDigitSpin st j h)
      · exact atMostOne_of_spinning_false st h
  · exact atMostOne_of_spinning_false st h

lemma arriveMid_stopped_manual (cfg : SMConfig) (st : SMState) (num : String)
    (hmode : cfg.spinMode = SpinMode.MANUAL) :
    (arriveMid cfg st num).1.stopped = fillB cfg.digitCount false := by
  rw [arriveMid]
  split
  · show (arriveReset cfg (arriveSet cfg st num)).stopped = _
    rw [arriveReset, if_pos hmode]
    rfl
  · show (arriveReset cfg (arriveSet cfg st num)).stopped = _
    rw [arriveReset, if_pos hmode]
    rfl

lemma arriveMid_spinning_click (cfg : SMConfig) (st : SMState) (num : String)
    (hmode : cfg.spinMode = SpinMode.MANUAL)
    (hrm : cfg.manualRevealMode = ManualRevealMode.CLICK) :
    (arriveMid cfg st num).1.spinning = fillB cfg.digitCount false := by
  rw [arriveMid, if_neg (by rintro ⟨-, h2⟩; rw [hrm] at h2; cases h2)]
  show (arriveReset cfg (arriveSet cfg st num)).spinning = _
  rw [arriveReset, if_pos hmode]
  rfl

lemma arriveMid_nonmanual (cfg : SMConfig) (st : SMState) (num : String)
    (hmode : ¬cfg.spinMode = SpinMode.MANUAL) :
    (arriveMid cfg st num).1 = arriveSet cfg st num := by
  rw [arriveMid, if_neg (by rintro ⟨hm, -⟩; exact hmode hm), arriveReset,
    if_neg hmode]

lemma neverBoth_manualTimerStopState (st : SMState) (i : Nat)
    (h : NeverBoth st) : NeverBoth (manualTimerStopState st i) := by
  rintro j ⟨h1, h2⟩
  obtain ⟨h1', hij⟩ := getD_of_set_false st.spinning i j h1
  rcases getD_of_set_true st.stopped i j h2 with hji | h2'
  · exact hij hji.symm
  · exact h j ⟨h1', h2'⟩

/-- NeverBoth is preserved by every machine transition in MANUAL mode. -/
lemma neverBoth_stepState (cfg : SMConfig)
    (hmode : cfg.spinMode = SpinMode.MANUAL) (st : SMState)
    (h : NeverBoth st) (e : Event) : NeverBoth (stepState cfg st e) := by
  cases e with
  | click i =>
    show NeverBoth (stepClick cfg st i).1
    have hcar : NeverBoth (clickAfterReset cfg st i) := by
      rw [clickAfterReset]
      split
      · exact neverBoth_targetClearedReset cfg _ (neverBoth_clickDigit cfg st i h)
      · exact neverBoth_clickDigit cfg st i h
    exact neverBoth_arrays _ _ (manualAllStoppedCheck_spinning cfg _)
      (manualAllStoppedCheck_stopped cfg _) hcar
  | targetArrives num =>
    show NeverBoth (stepTargetArrives cfg st num).1
    rw [stepTargetArrives]
    split
    · exact h
    · have hsync : syncAuto cfg
          (pendingClickEffect cfg (arriveMid cfg st num).1).1 =
          (pendingClickEffect cfg (arriveMid cfg st num).1).1 := by
        rw [syncAuto, if_pos hmode]
      show NeverBoth (manualAllStoppedCheck cfg (syncAuto cfg
        (pendingClickEffect cfg (arriveMid cfg st num).1).1)).1
      refine neverBoth_arrays _ _ (manualAllStoppedCheck_spinning cfg _)
        (manualAllStoppedCheck_stopped cfg _) ?_
      rw [hsync]
      apply neverBoth_pendingClickEffect_of_stopped_false
      intro k
      rw [arriveMid_stopped_manual cfg st num hmode]
      exact getD_fillB_false _ _
  | autoStopFire =>
    show NeverBoth (stepAutoStopFire cfg st).1
    rw [stepAutoStopFire,
      if_neg (by rintro ⟨hm, -⟩; rw [hmode] at hm; cases hm)]
    exact h
  | seqFire i =>
    show NeverBoth (stepSeqFire cfg st i).1
    rw [stepSeqFire, if_neg (by rintro ⟨hm, -⟩; rw [hmode] at hm; cases hm)]
    exact h
  | manualTimerFire i =>
    show NeverBoth (stepManualTimerFire cfg st i).1
    rw [stepManualTimerFire]
    split
    · exact neverBoth_arrays _ _ (manualAllStoppedCheck_spinning cfg _)
        (manualAllStoppedCheck_stopped cfg _)
        (neverBoth_manualTimerStopState st i h)
    · exact h
  | reveal =>
    show NeverBoth (stepReveal cfg st).1
    rw [stepReveal, if_neg (by rintro ⟨hm, -⟩; rw [hmode] at hm; cases hm)]
    exact h
  | resetStates =>
    show NeverBoth (stepReset cfg st).1
    exact neverBoth_of_spinning_false _ (fun k => getD_fillB_false _ _)

/-- AtMostOneSpinning is preserved by every machine transition in
MANUAL + CLICK mode. -/
lemma atMostOne_stepState (cfg : SMConfig)
    (hmode : cfg.spinMode = SpinMode.MANUAL)
    (hrm : cfg.manualRevealMode = ManualRevealMode.CLICK) (st : SMState)
    (h : AtMostOneSpinning st) (e : Event) :
    AtMostOneSpinning (stepState cfg st e) := by
  cases e with
  | click i =>
    show AtMostOneSpinning (stepClick cfg st i).1
    have hcar : AtMostOneSpinning (clickAfterReset cfg st i) := by
      rw [clickAfterReset]
      split
      · exact atMostOne_targetClearedReset cfg _ (atMostOne_clickDigit cfg st i h)
      · exact atMostOne_clickDigit cfg st i h
    exact atMostOne_arrays _ _ (manualAllStoppedCheck_spinning cfg _) hcar
  | targetArrives num =>
    show AtMostOneSpinning (stepTargetArrives cfg st num).1
    rw [stepTargetArrives]
    split
    · exact h
    · have hsync : syncAuto cfg
          (pendingClickEffect cfg (arriveMid cfg st num).1).1 =
          (pendingClickEffect cfg (arriveMid cfg st num).1).1 := by
        rw [syncAuto, if_pos hmode]
      show AtMostOneSpinning (manualAllStoppedCheck cfg (syncAuto cfg
        (pendingClickEffect cfg (arriveMid cfg st num).1).1)).1
      refine atMostOne_arrays _ _ (manualAllStoppedCheck_spinning cfg _) ?_
      rw [hsync]
      apply atMostOne_pendingClickEffect_of_none
      intro k
      rw [arriveMid_spinning_click cfg st num hmode hrm]
      exact getD_fillB_false _ _
  | autoStopFire =>
    show AtMostOneSpinning (stepAutoStopFire cfg st).1
    rw [stepAutoStopFire,
      if_neg (by rintro ⟨hm, -⟩; rw [hmode] at hm; cases hm)]
    exact h
  | seqFire i =>
    show AtMostOneSpinning (stepSeqFire cfg st i).1
    rw [stepSeqFire, if_neg (by rintro ⟨hm, -⟩; rw [hmode] at hm; cases hm)]
    exact h
  | manualTimerFire i =>
    show AtMostOneSpinning (stepManualTimerFire cfg st i).1
    rw [stepManualTimerFire,
      if_neg (by rintro ⟨-, ht, -⟩; rw [hrm] at ht; cases ht)]
    exact h
  | reveal =>
    show AtMostOneSpinning (stepReveal cfg st).1
    rw [stepReveal, if_neg (by rintro ⟨hm, -⟩; rw [hmode] at hm; cases hm)]
    exact h
  | resetStates =>
    show AtMostOneSpinning (stepReset cfg st).1
    exact atMostOne_of_spinning_false _ (fun k => getD_fillB_false _ _)

lemma neverBoth_run (cfg : SMConfig) (hmode : cfg.spinMode = SpinMode.MANUAL) :
    ∀ (evs : List Event) (st : SMState), NeverBoth st →
      NeverBoth (run cfg st evs)
  | [], _, h => h
  | e :: es, st, h =>
    neverBoth_run cfg hmode es _ (neverBoth_stepState cfg hmode st h e)

lemma atMostOne_run (cfg : SMConfig) (hmode : cfg.spinMode = SpinMode.MANUAL)
    (hrm : cfg.manualRevealMode = ManualRevealMode.CLICK) :
    ∀ (evs : List Event) (st : SMState), AtMostOneSpinning st →
      AtMostOneSpinning (run cfg st evs)
  | [], _, h => h
  | e :: es, st, h =>
    atMostOne_run cfg hmode hrm es _ (atMostOne_stepState cfg hmode hrm st h e)

lemma neverBoth_initSM (cfg : SMConfig) : NeverBoth (initSM cfg) :=
  neverBoth_of_spinning_false _ (fun k => getD_fillB_false _ k)

lemma atMostOne_initSM (cfg : SMConfig) : AtMostOneSpinning (initSM cfg) :=
  atMostOne_of_spinning_false _ (fun k => getD_fillB_false _ k)

lemma all_id_false_of_getD (l : List Bool) (j : Nat) (hj : j < l.length)
    (h : l.getD j false = false) : l.all id = false := by
  apply Bool.eq_false_iff.mpr
  intro hall
  rw [List.all_eq_true] at hall
  have hmem : l[j] ∈ l := List.getElem_mem hj
  have hj' := hall l[j] hmem
  rw [List.getD_eq_getElem l false hj] at h
  simp only [id] at hj'
  rw [hj'] at h
  cases h

lemma handleDigitClick_stopped_cases (cfg : SMConfig) (st : SMState) (j : Nat) :
    (handleDigitClick cfg st j).1.stopped = st.stopped ∨
    (handleDigitClick cfg st j).1.stopped = st.stopped.set j true ∨
    (handleDigitClick cfg st j).1.stopped = fillB cfg.digitCount false := by
  rw [handleDigitClick]
  by_cases h1 : cfg.spinMode ≠ SpinMode.MANUAL
  · rw [if_pos h1]; exact Or.inl rfl
  rw [if_neg h1]
  by_cases h2 : cfg.manualRevealMode = ManualRevealMode.TIMER
  · rw [if_pos h2]; exact Or.inl rfl
  rw [if_neg h2]
  by_cases h3 : st.spinning.getD j false = true
  · rw [if_pos h3]; exact Or.inr (Or.inl rfl)
  rw [if_neg h3]
  by_cases h4 : st.stopped.getD j false = true ∧ ¬areAllDigitsStopped st = true
  · rw [if_pos h4]; exact Or.inl rfl
  rw [if_neg h4]
  have hccs : (clickCycleStart cfg st).stopped = st.stopped ∨
      (clickCycleStart cfg st).stopped = fillB cfg.digitCount false := by
    rw [clickCycleStart]
    by_cases hall : areAllDigitsStopped st = true
    · rw [if_pos hall]; exact Or.inr rfl
    · rw [if_neg hall]; exact Or.inl rfl
  by_cases h5 : ¬st.manualSpinStarted = true ∨ areAllDigitsStopped st = true
  · rw [if_pos h5]
    by_cases h6 : st.target = none
    · rw [if_pos h6]
      rcases hccs with hc | hc
      · exact Or.inl hc
      · exact Or.inr (Or.inr hc)
    · rw [if_neg h6]
      rcases hccs with hc | hc
      · exact Or.inl hc
      · exact Or.inr (Or.inr hc)
  · rw [if_neg h5]
    by_cases h6 : st.target = none
    · rw [if_pos h6]; exact Or.inl rfl
    · rw [if_neg h6]; exact Or.inl rfl

lemma clickAfterReset_stopped_cases (cfg : SMConfig) (st : SMState) (j : Nat) :
    (clickAfterReset cfg st j).stopped = st.stopped ∨
    (clickAfterReset cfg st j).stopped = st.stopped.set j true ∨
    (clickAfterReset cfg st j).stopped = fillB cfg.digitCount false := by
  have hcd : (clickDigit cfg st j).1.stopped = st.stopped ∨
      (clickDigit cfg st j).1.stopped = st.stopped.set j true ∨
      (clickDigit cfg st j).1.stopped = fillB cfg.digitCount false := by
    rw [clickDigit]
    split
    · exact handleDigitClick_stopped_cases cfg st j
    · exact Or.inl rfl
  rw [clickAfterReset]
  split
  · rw [targetClearedReset]
    split
    · exact Or.inr (Or.inr rfl)
    · exact hcd
  · exact hcd

/-- Once a digit is stopped, every machine transition either keeps it
stopped or clears the whole stopped array for a fresh session/cycle. -/
lemma stopped_persists (cfg : SMConfig) (st : SMState) (e : Event) (i : Nat)
    (hlen : st.stopped.length = cfg.digitCount)
    (h : st.stopped.getD i false = true) :
    (stepState cfg st e).stopped.getD i false = true ∨
    (stepState cfg st e).stopped = fillB cfg.digitCount false := by
  have hi : i < cfg.digitCount := by
    have := getD_true_lt_length st.stopped i h
    omega
  have hfill : (fillB cfg.digitCount true).getD i false = true := by
    rw [fillB, getD_replicate, if_pos hi]
  cases e with
  | click j =>
    have hsc : (stepClick cfg st j).1.stopped =
        (clickAfterReset cfg st j).stopped := manualAllStoppedCheck_stopped cfg _
    show (stepClick cfg st j).1.stopped.getD i false = true ∨
      (stepClick cfg st j).1.stopped = fillB cfg.digitCount false
    rw [hsc]
    rcases clickAfterReset_stopped_cases cfg st j with hc | hc | hc
    · rw [hc]; exact Or.inl h
    · rw [hc]; exact Or.inl (getD_set_true st.stopped j i h)
    · rw [hc]; exact Or.inr rfl
  | targetArrives num =>
    show (stepTargetArrives cfg st num).1.stopped.getD i false = true ∨
      (stepTargetArrives cfg st num).1.stopped = fillB cfg.digitCount false
    rw [stepTargetArrives]
    split
    · exact Or.inl h
    · right
      show (manualAllStoppedCheck cfg (syncAuto cfg
        (pendingClickEffect cfg (arriveMid cfg st num).1).1)).1.stopped = _
      rw [manualAllStoppedCheck_stopped]
      by_cases hmode : cfg.spinMode = SpinMode.MANUAL
      · rw [syncAuto, if_pos hmode, pendingClickEffect_stopped,
          arriveMid_stopped_manual cfg st num hmode]
      · rw [syncAuto, if_neg hmode]
        show fillB cfg.digitCount
          (!(pendingClickEffect cfg (arriveMid cfg st num).1).1.isSpinning) = _
        rw [pendingClickEffect_isSpinning, arriveMid_nonmanual cfg st num hmode]
        rfl
  | autoStopFire =>
    show (stepAutoStopFire cfg st).1.stopped.getD i false = true ∨
      (stepAutoStopFire cfg st).1.stopped = fillB cfg.digitCount false
    rw [stepAutoStopFire]
    split
    · next hguard =>
        left
        obtain ⟨hm, -⟩ := hguard
        show (syncAuto cfg (appFinish _)).stopped.getD i false = true
        rw [syncAuto, if_neg (by rw [hm]; intro hc; cases hc)]
        show (fillB cfg.digitCount true).getD i false = true
        exact hfill
    · exact Or.inl h
  | seqFire j =>
    show (stepSeqFire cfg st j).1.stopped.getD i false = true ∨
      (stepSeqFire cfg st j).1.stopped = fillB cfg.digitCount false
    rw [stepSeqFire]
    split
    · next hguard =>
        obtain ⟨hm, -, -⟩ := hguard
        split
        · left
          show (syncAuto cfg (appFinish _)).stopped.getD i false = true
          rw [syncAuto, if_neg (by rw [hm]; intro hc; cases hc)]
          show (fillB cfg.digitCount true).getD i false = true
          exact hfill
        · left
          show (st.stopped.set j true).getD i false = true
          exact getD_set_true st.stopped j i h
    · exact Or.inl h
  | manualTimerFire j =>
    show (stepManualTimerFire cfg st j).1.stopped.getD i false = true ∨
      (stepManualTimerFire cfg st j).1.stopped = fillB cfg.digitCount false
    rw [stepManualTimerFire]
    split
    · left
      show (manualAllStoppedCheck cfg
        (manualTimerStopState st j)).1.stopped.getD i false = true
      rw [manualAllStoppedCheck_stopped]
      show (st.stopped.set j true).getD i false = true
      exact getD_set_true st.stopped j i h
    · exact Or.inl h
  | reveal =>
    show (stepReveal cfg st).1.stopped.getD i false = true ∨
      (stepReveal cfg st).1.stopped = fillB cfg.digitCount false
    rw [stepReveal]
    split
    · next hguard =>
        obtain ⟨hm, -⟩ := hguard
        split
        · exact Or.inl h
        · left
          show (syncAuto cfg (appFinish _)).stopped.getD i false = true
          rw [syncAuto, if_neg (by rw [hm]; intro hc; cases hc)]
          show (fillB cfg.digitCount true).getD i false = true
          exact hfill
    · exact Or.inl h
  | resetStates =>
    right
    rfl

/-! ### Claim C2 -/

/-- C2, counterexample.  The claim says a digit is never simultaneously
spinning and stopped in any reachable per-digit state.  In a SEQUENTIAL
session the per-digit timeout sets `digitStoppedState[i] = true` without
clearing `digitSpinningState[i]` (which the start sync set to `true`), so
after the first digit's timeout fires, digit 0 has both flags set. -/
theorem digit_spinning_and_stopped_both_true :
    (run seqCfg2 (initSM seqCfg2)
      [Event.targetArrives "12", Event.seqFire 0]).spinning.getD 0 false = true ∧
    (run seqCfg2 (initSM seqCfg2)
      [Event.targetArrives "12", Event.seqFire 0]).stopped.getD 0 false = true := by
  decide

/-- C2, amended.  In OPERATOR_PACED (MANUAL) sessions the per-digit flags
are never both set in any reachable state; in the timed/simultaneous
modes a stopped digit can retain a stale spinning flag until the
session-end sync (the stopped flag takes precedence).  In every mode,
once a digit is stopped, each operation either keeps it stopped or clears
the whole stopped array at once for a fresh session/cycle — a stopped
digit never individually reverts within a session. -/
theorem manual_digit_invariant_and_stopped_terminal :
    (∀ cfg : SMConfig, cfg.spinMode = SpinMode.MANUAL →
      ∀ (evs : List Event) (i : Nat),
        ¬((run cfg (initSM cfg) evs).spinning.getD i false = true ∧
          (run cfg (initSM cfg) evs).stopped.getD i false = true)) ∧
    (∀ (cfg : SMConfig) (st : SMState) (e : Event) (i : Nat),
      st.stopped.length = cfg.digitCount →
      st.stopped.getD i false = true →
      (stepState cfg st e).stopped.getD i false = true ∨
      (stepState cfg st e).stopped = fillB cfg.digitCount false) := by
  constructor
  · intro cfg hmode evs i
    exact neverBoth_run cfg hmode evs (initSM cfg) (neverBoth_initSM cfg) i
  · intro cfg st e i hlen h
    exact stopped_persists cfg st e i hlen h

/-- C2, witness for the amended theorem: the invariant at a concrete
MANUAL + CLICK run, and stopped-persistence for the next SEQUENTIAL
timeout after digit 0 stopped. -/
theorem manual_digit_invariant_witness :
    (¬((run clickCfg (initSM clickCfg)
        [Event.targetArrives "123", Event.click 0]).spinning.getD 0 false = true ∧
      (run clickCfg (initSM clickCfg)
        [Event.targetArrives "123", Event.click 0]).stopped.getD 0 false = true)) ∧
    ((stepState seqCfg (run seqCfg (initSM seqCfg)
        [Event.targetArrives "123", Event.seqFire 0]) (Event.seqFire 1)).stopped.getD
        0 false = true ∨
      (stepState seqCfg (run seqCfg (initSM seqCfg)
        [Event.targetArrives "123", Event.seqFire 0]) (Event.seqFire 1)).stopped =
        fillB seqCfg.digitCount false) :=
  ⟨manual_digit_invariant_and_stopped_terminal.1 clickCfg rfl
      [Event.targetArrives "123", Event.click 0] 0,
   manual_digit_invariant_and_stopped_terminal.2 seqCfg
      (run seqCfg (initSM seqCfg) [Event.targetArrives "123", Event.seqFire 0])
      (Event.seqFire 1) 0 (by decide) (by decide)⟩

/-! ### Claim C7 -/

/-- C7, confirmed.  In OPERATOR_PACED (MANUAL + CLICK) mode:
(1) at most one digit spins in any reachable state;
(2) while some digit is spinning, a click on another not-yet-stopped
digit is rejected — the state is unchanged and nothing is emitted;
(3) a click on the currently spinning digit stops that digit. -/
theorem operator_paced_single_spin_click_protocol :
    (∀ cfg : SMConfig, cfg.spinMode = SpinMode.MANUAL →
      cfg.manualRevealMode = ManualRevealMode.CLICK →
      ∀ evs : List Event, AtMostOneSpinning (run cfg (initSM cfg) evs)) ∧
    (∀ (cfg : SMConfig) (st : SMState) (i j : Nat),
      cfg.spinMode = SpinMode.MANUAL →
      cfg.manualRevealMode = ManualRevealMode.CLICK →
      st.stopped.length = cfg.digitCount → j < cfg.digitCount →
      st.spinning.getD j false = true → st.stopped.getD j false = false →
      st.spinning.getD i false = false → st.stopped.getD i false = false →
      step cfg st (Event.click i) = (st, [])) ∧
    (∀ (cfg : SMConfig) (st : SMState) (i : Nat),
      cfg.spinMode = SpinMode.MANUAL →
      cfg.manualRevealMode = ManualRevealMode.CLICK →
      st.stopped.length = cfg.digitCount → i < cfg.digitCount →
      st.spinning.getD i false = true →
      (step cfg st (Event.click i)).1.spinning.getD i false = false ∧
      (step cfg st (Event.click i)).1.stopped.getD i false = true) := by
  refine ⟨?_, ?_, ?_⟩
  · intro cfg hmode hrm evs
    exact atMostOne_run cfg hmode hrm evs (initSM cfg) (atMostOne_initSM cfg)
  · intro cfg st i j hmode hrm hlen hjlt hspinj hstopj hspini hstopi
    have hjl := getD_true_lt_length st.spinning j hspinj
    have hany : isAnyDigitSpinning st = true := by
      rw [isAnyDigitSpinning, List.any_eq_true]
      refine ⟨st.spinning[j], List.getElem_mem hjl, ?_⟩
      have hgj := hspinj
      rw [List.getD_eq_getElem st.spinning false hjl] at hgj
      simpa using hgj
    have hclickable : isDigitClickable cfg st i = false := by
      rw [isDigitClickable]
      rw [if_neg (by rw [hmode]; exact fun hc => hc rfl)]
      rw [if_neg (by rw [hrm]; intro hc; cases hc)]
      rw [hspini]
      rw [if_neg (by intro hc; cases hc)]
      rw [if_pos hany]
    have hcd : clickDigit cfg st i = (st, []) := by
      rw [clickDigit, if_neg (by rw [hclickable]; intro hc; cases hc)]
    have hcar : clickAfterReset cfg st i = st := by
      rw [clickAfterReset, hcd]
      rw [if_neg (by rintro ⟨hms, hnot⟩; exact hnot hms)]
    have hall : areAllDigitsStopped st = false :=
      all_id_false_of_getD st.stopped j (by omega) hstopj
    have hmsc : manualAllStoppedCheck cfg st = (st, []) := by
      rw [manualAllStoppedCheck,
        if_neg (by rintro ⟨-, -, hc⟩; rw [hall] at hc; cases hc)]
    show stepClick cfg st i = (st, [])
    rw [stepClick, hcar, hmsc, hcd]
    rfl
  · intro cfg st i hmode hrm hlen hilt hspin
    have hclickable : isDigitClickable cfg st i = true := by
      rw [isDigitClickable]
      rw [if_neg (by rw [hmode]; exact fun hc => hc rfl)]
      rw [if_neg (by rw [hrm]; intro hc; cases hc)]
      rw [hspin, if_pos rfl]
    have hhdc : handleDigitClick cfg st i = stopDigitSpin st i := by
      rw [handleDigitClick]
      rw [if_neg (by rw [hmode]; exact fun hc => hc rfl)]
      rw [if_neg (by rw [hrm]; intro hc; cases hc)]
      rw [if_pos hspin]
    have hcd : clickDigit cfg st i = stopDigitSpin st i := by
      rw [clickDigit, if_pos hclickable, hhdc]
    have hcar : clickAfterReset cfg st i = (stopDigitSpin st i).1 := by
      rw [clickAfterReset, hcd]
      rw [if_neg (by rintro ⟨hms, hnot⟩; exact hnot hms)]
    constructor
    · show (stepClick cfg st i).1.spinning.getD i false = false
      have hsp : (stepClick cfg st i).1.spinning =
          (clickAfterReset cfg st i).spinning := manualAllStoppedCheck_spinning cfg _
      rw [hsp, hcar]
      show (st.spinning.set i false).getD i false = false
      rw [getD_set_self st.spinning i false (getD_true_lt_length st.spinning i hspin)]
    · show (stepClick cfg st i).1.stopped.getD i false = true
      have hst : (stepClick cfg st i).1.stopped =
          (clickAfterReset cfg st i).stopped := manualAllStoppedCheck_stopped cfg _
      rw [hst, hcar]
      show (st.stopped.set i true).getD i false = true
      rw [getD_set_self st.stopped i true (by omega)]

/-- C7, witness: the protocol at concrete inputs — the reachable-state
invariant after a start-and-click run; clicking digit 1 while digit 0
spins is a no-op; clicking digit 0 again stops it. -/
theorem operator_paced_protocol_witness :
    AtMostOneSpinning (run clickCfg (initSM clickCfg)
      [Event.targetArrives "123", Event.click 0]) ∧
    step clickCfg (run clickCfg (initSM clickCfg)
      [Event.targetArrives "123", Event.click 0]) (Event.click 1) =
      (run clickCfg (initSM clickCfg) [Event.targetArrives "123", Event.click 0], []) ∧
    ((step clickCfg (run clickCfg (initSM clickCfg)
        [Event.targetArrives "123", Event.click 0]) (Event.click 0)).1.spinning.getD
        0 false = false ∧
      (step clickCfg (run clickCfg (initSM clickCfg)
        [Event.targetArrives "123", Event.click 0]) (Event.click 0)).1.stopped.getD
        0 false = true) :=
  ⟨operator_paced_single_spin_click_protocol.1 clickCfg rfl rfl
      [Event.targetArrives "123", Event.click 0],
   operator_paced_single_spin_click_protocol.2.1 clickCfg
      (run clickCfg (initSM clickCfg) [Event.targetArrives "123", Event.click 0])
      1 0 rfl rfl (by decide) (by decide) (by decide) (by decide) (by decide)
      (by decide),
   operator_paced_single_spin_click_protocol.2.2 clickCfg
      (run clickCfg (initSM clickCfg) [Event.targetArrives "123", Event.click 0])
      0 rfl rfl (by decide) (by decide) (by decide)⟩

end LuckyDraw
